import Mathlib

/-!
# Reverse Game of Life solver: a shallow embedding

Verification of the constraint encoding and search orchestration of a
solver that computes a predecessor state of a Conway's Game of Life grid.

The embedding models:
* the Z3 constraint encoders (`neigh_sum`, the five-implication
  `add_clauses` of `src/src/rgol.cpp` and the single-equation
  `add_clauses` of the newer rgol.cpp) as satisfaction predicates over a
  known `t1` grid and a candidate `t0` assignment;
* the iterative-deepening search loop `solve_iter` as a fuel-indexed
  transition function driven by an oracle that abstracts the solver's
  check results;
* the orchestration logic of `Board::launch_tasks` and
  `Board::previous_state` as selection functions over task outcomes;
* the legacy kissat clause generator of `src/src/tmp/solveee.c`
  (`neigh_init`, `life`, `dead`, `add_clauses`) including its `size_t`
  wrap-around coordinate arithmetic, and the literal numbering of
  `board_read`.

The reference semantics (`spec_neighbors`, `spec_life_cell`, `spec_step`)
follows the specification's words: the Life rule on the Moore
neighborhood restricted to in-bounds cells.
-/

namespace RGoL

/-- A grid of cell states, indexed (row, column); cells outside the
`rows × cols` window are irrelevant (every embedded function guards its
accesses, as the C++ code does). -/
abbrev NatGrid := Nat → Nat → Bool

/-- The Moore-neighborhood offset table, exactly the `off` array of
`neigh_sum` (rgol.cpp) and the `pos` array of `neigh_init` (solveee.c). -/
def off_table : List (Int × Int) :=
  [(-1, -1), (-1, 0), (-1, 1),
   ( 0, -1),          ( 0, 1),
   ( 1, -1), ( 1, 0), ( 1, 1)]

/-- The in-bounds test `(x >= 0 && x < n) && (y >= 0 && y < m)` shared by
the encoders, and the spec's window `[0, rows) × [0, cols)`. -/
def in_bounds (n m : Nat) (x y : Int) : Prop :=
  0 ≤ x ∧ x < n ∧ 0 ≤ y ∧ y < m

instance (n m : Nat) (x y : Int) : Decidable (in_bounds n m x y) :=
  inferInstanceAs (Decidable (0 ≤ x ∧ x < n ∧ 0 ≤ y ∧ y < m))

/-- Following the spec's words (§4.1 Neighbor Topology): the list of valid
neighbor coordinates among the 8 Moore offsets, dropping any offset that
falls outside `[0, rows) × [0, cols)`. -/
def spec_neighbors (n m i j : Nat) : List (Nat × Nat) :=
  off_table.filterMap fun d =>
    if in_bounds n m (d.1 + i) (d.2 + j) then some ((d.1 + (i : Int)).toNat, (d.2 + (j : Int)).toNat)
    else none

/-- Number of live neighbors of `(i, j)` in `t0`, counted over the spec's
neighbor set. -/
def spec_alive_neighbors (n m : Nat) (t0 : NatGrid) (i j : Nat) : Nat :=
  (spec_neighbors n m i j).countP fun p => t0 p.1 p.2

/-- Following the spec's glossary: a cell is alive in the next step iff it
has exactly 3 live neighbors, or it is alive with exactly 2 live
neighbors. -/
def spec_life_cell (n m : Nat) (t0 : NatGrid) (i j : Nat) : Bool :=
  (spec_alive_neighbors n m t0 i j == 3) || (t0 i j && (spec_alive_neighbors n m t0 i j == 2))

/-- "t1 = Life(t0)" cell-by-cell on the `n × m` window. -/
def spec_step (n m : Nat) (t1 t0 : NatGrid) : Prop :=
  ∀ i, i < n → ∀ j, j < m → t1 i j = spec_life_cell n m t0 i j

/-- The accumulating loop of `neigh_sum` (rgol.cpp): for each offset, if
the neighbor is in bounds and alive, add one to the running sum. -/
def neigh_sum_go (n m : Nat) (t0 : NatGrid) (i j : Nat) : List (Int × Int) → Nat → Nat
  | [], sum => sum
  | d :: ds, sum =>
      neigh_sum_go n m t0 i j ds
        (if in_bounds n m (d.1 + i) (d.2 + j) then
          (if t0 (d.1 + (i : Int)).toNat (d.2 + (j : Int)).toNat then sum + 1 else sum)
         else sum)

/-- `neigh_sum` (rgol.cpp): the symbolic count of live neighbors of cell
`(i, j)` of the unknown `t0` grid, evaluated at a concrete assignment. -/
def neigh_sum (n m : Nat) (t0 : NatGrid) (i j : Nat) : Nat :=
  neigh_sum_go n m t0 i j off_table 0

/-- The five-implication constraint family of `add_clauses`
(src/src/rgol.cpp, lines 158-221), instantiated at one cell: `a` is the
t0 value, `b` the t1 value, `k` the live-neighbor count. -/
def five_rules (a b : Bool) (k : Nat) : Prop :=
  ((a = true ∧ k ≤ 1) → b = false) ∧
  ((a = true ∧ (k = 2 ∨ k = 3)) → b = true) ∧
  ((a = true ∧ 4 ≤ k) → b = false) ∧
  ((a = false ∧ k = 3) → b = true) ∧
  ((a = false ∧ k ≠ 3) → b = false)

instance (a b : Bool) (k : Nat) : Decidable (five_rules a b k) :=
  inferInstanceAs (Decidable (_ ∧ _ ∧ _ ∧ _ ∧ _))

/-- Satisfaction of the whole constraint set emitted by the
five-implication `add_clauses` (src/src/rgol.cpp) together with the
`init_repr` bindings that fix the t1 variables to the known grid. -/
def add_clauses_five_sat (n m : Nat) (t1 t0 : NatGrid) : Prop :=
  ∀ i, i < n → ∀ j, j < m → five_rules (t0 i j) (t1 i j) (neigh_sum n m t0 i j)

instance (n m : Nat) (t1 t0 : NatGrid) : Decidable (add_clauses_five_sat n m t1 t0) :=
  inferInstanceAs (Decidable (∀ i, i < n → ∀ j, j < m →
    five_rules (t0 i j) (t1 i j) (neigh_sum n m t0 i j)))

/-- The right-hand side of the single-equation encoding of `add_clauses`
in the newer rgol.cpp: `ite((neigh == 3) || (ct0 && neigh == 2), true,
false)`. -/
def life_ite (n m : Nat) (t0 : NatGrid) (i j : Nat) : Bool :=
  (neigh_sum n m t0 i j == 3) || (t0 i j && (neigh_sum n m t0 i j == 2))

/-- Satisfaction of the constraint set emitted by the single-equation
`add_clauses` (newer rgol.cpp, lines 197-229) with the `init_repr`
bindings. -/
def add_clauses_ite_sat (n m : Nat) (t1 t0 : NatGrid) : Prop :=
  ∀ i, i < n → ∀ j, j < m → t1 i j = life_ite n m t0 i j

instance (n m : Nat) (t1 t0 : NatGrid) : Decidable (add_clauses_ite_sat n m t1 t0) :=
  inferInstanceAs (Decidable (∀ i, i < n → ∀ j, j < m → t1 i j = life_ite n m t0 i j))

/-- `count_ones` (and the `total` objective of `add_clauses`): the number
of live cells of a grid, summed row-major over the `n × m` window. -/
def count_ones (n m : Nat) (g : NatGrid) : Nat :=
  ((List.range n).map fun i =>
    ((List.range m).map fun j => if g i j then 1 else 0).sum).sum

/-! ## The iterative-deepening loop (`solve_iter`, newer rgol.cpp) -/

/-- The outcome of one `sol.check()` call, as the loop observes it: a
model (with the wall-clock time the call took), a proof of
unsatisfiability, or an inconclusive answer (Z3's `unknown`, e.g. on a
solver-side timeout). -/
inductive check_result where
  | found (g : NatGrid) (elapsed : Nat)
  | unsat_res (elapsed : Nat)
  | unknown_res (elapsed : Nat)

/-- The state threaded through `solve_iter`'s deepening loop, plus ghost
trace fields (`calls`, `bounds`, `accepted`) recording the solver calls
made, the bound `max` used by each `total <= max` constraint, and the
live-cell count of each solution accepted by `fill_t0`. -/
structure IterState where
  sat : Bool
  best : Option NatGrid
  max : Nat
  timeout : Nat
  calls : Nat
  bounds : List Nat
  accepted : List Nat

/-- The timeout adjustment of the `time_it` macro: subtract the elapsed
time, clamping at zero when it meets or exceeds the remaining budget. -/
def time_it_update (timeout k : Nat) : Nat :=
  if k < timeout then timeout - k else 0

/-- One pass structure of `solve_iter`'s `for` loop (newer rgol.cpp,
lines 439-457).  `fuel` is the loop counter `i` (which runs from
`n*m` down to `0` and is not otherwise used); the loop also stops when
`timeout` reaches zero, and `break`s on any check result other than
`sat` — in that case the `time_it` accounting after the `break` is
skipped, so `timeout` is left unchanged.  On a `sat` result the model's
live-cell count `cur` is accepted when `cur <= max`, `t0` is filled and
`max` is set to `cur`. -/
def solve_iter_go (n m : Nat) (oracle : Nat → check_result) :
    Nat → IterState → IterState
  | 0, st => st
  | fuel + 1, st =>
      if st.timeout = 0 then st
      else
        match oracle st.calls with
        | .found g e =>
            let cur := count_ones n m g
            let st1 :=
              if cur ≤ st.max then
                { st with best := some g, max := cur, accepted := st.accepted ++ [cur] }
              else st
            solve_iter_go n m oracle fuel
              { st1 with sat := true,
                         timeout := time_it_update st.timeout e,
                         calls := st.calls + 1,
                         bounds := st.bounds ++ [st.max] }
        | .unsat_res _ =>
            { st with calls := st.calls + 1, bounds := st.bounds ++ [st.max] }
        | .unknown_res _ =>
            { st with calls := st.calls + 1, bounds := st.bounds ++ [st.max] }

/-- `solve_iter` (newer rgol.cpp, lines 412-460): the deepening loop
started with `max = n*m`, loop counter `i = max` (so at most `n*m + 1`
passes), an empty trace and `sat = false`. -/
def solve_iter (n m : Nat) (oracle : Nat → check_result) (timeout0 : Nat) : IterState :=
  solve_iter_go n m oracle (n * m + 1)
    { sat := false, best := none, max := n * m, timeout := timeout0,
      calls := 0, bounds := [], accepted := [] }

/-! ## Orchestration (`Board::launch_tasks`, `Board::previous_state`) -/

/-- The result pair assembled by the body of `Board::launch_tasks`
(board.cpp, lines 50-107): `ret.first` is the feasibility task's verdict
after the orchestrator's wait; only when it is `true` is the minimizing
task's future waited on, `minopt` being `wait_future`'s outcome (`none`
when it was not ready in the remaining time).  This is the value
selection only; `launch_tasks_run` below adds when that value actually
reaches the caller. -/
def launch_tasks_select (ret_first : Bool) (minopt : Option Bool) : Bool × Bool :=
  if ret_first then
    (ret_first, match minopt with
                | some v => v
                | none => false)
  else (ret_first, false)

/-- `Board::launch_tasks` including its exit behavior: `anyfut` and
`minfut` are local `std::future`s obtained from `std::async` with
`std::launch::async` (`utils::launch_future`, utils.hpp), and such a
future's destructor blocks until its task's shared state is ready.  So
when the body reaches `return ret` at `body_elapsed` milliseconds after
launch, the pair reaches the caller only once both tasks have completed
(`any_done`, `min_done`: the tasks' own completion times) — on the
unsatisfiable path this joins the abandoned `rgol::solve` call, which
runs to its own z3 timeout.  The result is the returned pair together
with the time at which `launch_tasks` actually returns. -/
def launch_tasks_run (ret_first : Bool) (minopt : Option Bool)
    (body_elapsed any_done min_done : Nat) : (Bool × Bool) × Nat :=
  (launch_tasks_select ret_first minopt, max body_elapsed (max any_done min_done))

/-- The selection in `Board::previous_state` (board.cpp, lines 126-150):
`!status.first` returns the `unsat` board, `status.second` the
minimizer's board, otherwise the feasibility board — each wrapped into an
engaged `std::optional`. -/
def previous_state_select (status : Bool × Bool) (unsat_b any_b min_b : NatGrid) :
    Option NatGrid :=
  if !status.1 then some unsat_b
  else if status.2 then some min_b
  else some any_b

/-- `operator<<(std::ostream&, const std::optional<Board>&)` (board.cpp,
lines 201-210): an engaged optional prints the board, a disengaged one
prints the fixed fallback line. -/
def print_optional (render : NatGrid → String) : Option NatGrid → String
  | some b => render b
  | none => "No solution found."

/-! ## The legacy kissat path (`solveee.c`, `board.c`) -/

/-- The literal magnitude `board_read` (board.c, line 589) assigns to
cell `(i, j)`: `ind = i * board->n + j + 1`, where `board->n` is the
number of rows. -/
def board_read_ind (rows i j : Nat) : Nat :=
  i * rows + j + 1

/-- The cell encoding of `board_read`: the literal is `ind` for a live
cell and `-ind` for a dead one. -/
def board_read_table (rows _cols : Nat) (input : Nat → Nat → Nat) : Nat → Nat → Int :=
  fun i j =>
    if input i j = 0 then -(board_read_ind rows i j : Int) else (board_read_ind rows i j : Int)

/-- The variable numbering the spec describes (§9): `row * cols + col + 1`. -/
def spec_var_ind (cols i j : Nat) : Nat :=
  i * cols + j + 1

/-- `size_t` addition of a small signed offset, as `x = i + pos[k][0]`
computes it in `neigh_init` (solveee.c): two's-complement wrap-around
modulo `2^64`. -/
def wrap_add (i : Nat) (d : Int) : Nat :=
  ((i + d : Int) % 18446744073709551616).toNat

/-- `neigh_init` (solveee.c, lines 142-173): the 8-slot neighbor array;
a slot holds the absolute literal of an in-bounds neighbor and `0`
otherwise (the unsigned comparison `x < b->n && y < b->m` doing the
bounds check after wrap-around). -/
def neigh_init_ee (n m : Nat) (table : Nat → Nat → Int) (i j : Nat) : List Int :=
  off_table.map fun d =>
    let x := wrap_add i d.1
    let y := wrap_add j d.2
    if x < n ∧ y < m then ((table x y).natAbs : Int) else 0

/-- The in-bounds neighbor positions seen by `neigh_init` (solveee.c):
the slots of the neighbor array that receive a literal rather than `0`,
in offset-table order. -/
def neigh_present_ee (n m i j : Nat) : List (Nat × Nat) :=
  off_table.filterMap fun d =>
    let x := wrap_add i d.1
    let y := wrap_add j d.2
    if x < n ∧ y < m then some (x, y) else none

/-- The clauses `life` (solveee.c, lines 89-117) emits for a cell that is
alive at t1: for every pair `idx < jdx` of nonzero neighbor slots, the
clause `abs(curr) ∨ neigh[idx] ∨ neigh[jdx] ∨ ⋁ ¬neigh[k]` over the
remaining nonzero slots. -/
def life_clauses (curr : Int) (neigh : List Int) : List (List Int) :=
  (List.range 8).flatMap fun idx =>
    if neigh.getD idx 0 = 0 then []
    else
      ((List.range 8).filter fun jdx => idx < jdx).flatMap fun jdx =>
        if neigh.getD jdx 0 = 0 then []
        else
          [(curr.natAbs : Int) :: neigh.getD idx 0 :: neigh.getD jdx 0 ::
            ((List.range 8).filterMap fun k =>
              if neigh.getD k 0 = 0 then none
              else if k ≠ idx ∧ k ≠ jdx then some (-(neigh.getD k 0)) else none)]

/-- The single clause of `dead_no_neigh` (solveee.c, lines 64-77): the
negation of every nonzero neighbor slot. -/
def dead_no_neigh_clause (neigh : List Int) : List Int :=
  (List.range 8).filterMap fun idx =>
    if neigh.getD idx 0 = 0 then none else some (-(neigh.getD idx 0))

/-- The clauses of `dead_one_neigh` (solveee.c, lines 42-62): for every
nonzero slot `idx`, the clause `¬neigh[idx] ∨ ⋁ neigh[j]` over the other
nonzero slots. -/
def dead_one_neigh_clauses (neigh : List Int) : List (List Int) :=
  (List.range 8).flatMap fun idx =>
    if neigh.getD idx 0 = 0 then []
    else
      [-(neigh.getD idx 0) ::
        ((List.range 8).filterMap fun jdx =>
          if neigh.getD jdx 0 = 0 then none
          else if jdx ≠ idx then some (neigh.getD jdx 0) else none)]

/-- `dead` (solveee.c, lines 79-87): `dead_no_neigh` then
`dead_one_neigh`; the call to `dead_two_neigh` is commented out in the
source. -/
def dead_clauses (neigh : List Int) : List (List Int) :=
  dead_no_neigh_clause neigh :: dead_one_neigh_clauses neigh

/-- `add_clauses` (solveee.c, lines 181-204): row-major over the board,
`life` for a positive (live-at-t1) cell literal and `dead` otherwise. -/
def add_clauses_ee (n m : Nat) (table : Nat → Nat → Int) : List (List Int) :=
  (List.range n).flatMap fun i =>
    (List.range m).flatMap fun j =>
      let curr := table i j
      let neigh := neigh_init_ee n m table i j
      if 0 < curr then life_clauses curr neigh else dead_clauses neigh

/-- A SAT assignment over positive variable indices satisfies a literal
when a positive literal's variable is true or a negative literal's
variable is false. -/
def lit_sat (a : Nat → Bool) (l : Int) : Bool :=
  if 0 < l then a l.toNat else !a (-l).toNat

/-- A clause is satisfied when some literal is. -/
def clause_sat (a : Nat → Bool) (c : List Int) : Bool :=
  c.any (lit_sat a)

/-- A clause set is satisfied when every clause is. -/
def cnf_sat (a : Nat → Bool) (cs : List (List Int)) : Bool :=
  cs.all (clause_sat a)

/-! ## Concrete fixtures used by counterexamples and witnesses -/

/-- The all-dead grid. -/
def g_dead : NatGrid := fun _ _ => false

/-- The all-alive grid. -/
def g_alive : NatGrid := fun _ _ => true

/-- An oracle whose every check reports the all-alive model instantly —
consistent for the 1×1 dead target, where the all-alive grid satisfies
the constraints with live-cell count 1. -/
def oracle_repeat_alive : Nat → check_result :=
  fun _ => .found g_alive 0

/-- An oracle whose first check proves unsatisfiability after consuming
the whole 100 ms budget. -/
def oracle_unsat_100 : Nat → check_result :=
  fun _ => .unsat_res 100

/-- An oracle whose first check comes back inconclusive (solver-side
timeout) after consuming the whole 100 ms budget. -/
def oracle_unknown_100 : Nat → check_result :=
  fun _ => .unknown_res 100

/-! ## Helper lemmas -/

lemma neigh_sum_go_eq (n m : Nat) (t0 : NatGrid) (i j : Nat) :
    ∀ (l : List (Int × Int)) (s : Nat),
      neigh_sum_go n m t0 i j l s =
        s + (l.filterMap fun d =>
              if in_bounds n m (d.1 + i) (d.2 + j) then
                some ((d.1 + (i : Int)).toNat, (d.2 + (j : Int)).toNat)
              else none).countP (fun p => t0 p.1 p.2) := by
  intro l
  induction l with
  | nil => intro s; simp [neigh_sum_go]
  | cons d ds ih =>
      intro s
      by_cases hb : in_bounds n m (d.1 + i) (d.2 + j)
      · by_cases ha : t0 (d.1 + i).toNat (d.2 + j).toNat
        · simp [neigh_sum_go, hb, ha, ih, List.countP_cons]
          omega
        · simp [neigh_sum_go, hb, ha, ih, List.countP_cons]
      · simp [neigh_sum_go, hb, ih]

/-- The source's neighbor sum agrees with the count over the spec's
neighbor set. -/
lemma neigh_sum_eq_spec (n m : Nat) (t0 : NatGrid) (i j : Nat) :
    neigh_sum n m t0 i j = spec_alive_neighbors n m t0 i j := by
  simpa [neigh_sum, spec_alive_neighbors, spec_neighbors] using
    neigh_sum_go_eq n m t0 i j off_table 0

/-- Per-cell normalization: the five implications pin the t1 value to
exactly the Life rule. -/
lemma five_rules_iff (a b : Bool) (k : Nat) :
    five_rules a b k ↔ b = ((k == 3) || (a && (k == 2))) := by
  unfold five_rules
  cases a <;> cases b <;> simp <;> omega

/-! ## C1: the encodings are equivalent to one step of the Life rule -/

/-- C1: an assignment to the t0 variables satisfies the emitted
constraint set iff applying one Life step to it yields exactly the t1
grid cell-by-cell, for both the five-implication encoding
(src/src/rgol.cpp) and the single-equation encoding (newer rgol.cpp);
hence a t0 grid extracted from a satisfying model evolves into t1. -/
theorem add_clauses_iff_spec_step (n m : Nat) (t1 t0 : NatGrid) :
    (add_clauses_five_sat n m t1 t0 ↔ spec_step n m t1 t0) ∧
    (add_clauses_ite_sat n m t1 t0 ↔ spec_step n m t1 t0) := by
  constructor
  · unfold add_clauses_five_sat spec_step
    apply forall_congr'
    intro i
    apply imp_congr_right
    intro _
    apply forall_congr'
    intro j
    apply imp_congr_right
    intro _
    rw [five_rules_iff, neigh_sum_eq_spec]
    rfl
  · unfold add_clauses_ite_sat spec_step
    apply forall_congr'
    intro i
    apply imp_congr_right
    intro _
    apply forall_congr'
    intro j
    apply imp_congr_right
    intro _
    rw [show life_ite n m t0 i j = spec_life_cell n m t0 i j by
      unfold life_ite spec_life_cell
      rw [neigh_sum_eq_spec]]

/-! ## C2: the minimizer's result supersedes the feasibility result -/

/-- C2: when the minimizing task completes in time with a model
(`z3::optimize` returns a satisfying assignment of minimal live-cell
count), its count is below every feasible solution's count — in
particular the feasibility task's best — and `previous_state` returns
the minimizer's board (`status = (true, true)`). -/
theorem solve_min_supersedes (n m : Nat) (t1 g_min g_any : NatGrid)
    (_hmin_sat : add_clauses_ite_sat n m t1 g_min)
    (hmin_opt : ∀ g, add_clauses_ite_sat n m t1 g →
      count_ones n m g_min ≤ count_ones n m g)
    (hany_sat : add_clauses_ite_sat n m t1 g_any) :
    count_ones n m g_min ≤ count_ones n m g_any ∧
    (∀ u, previous_state_select (true, true) u g_any g_min = some g_min) := by
  exact ⟨hmin_opt g_any hany_sat, fun u => rfl⟩

/-- Witness for C2 at the 1×1 dead target: the all-dead minimum (0 live
cells) against the all-alive feasible solution (1 live cell). -/
theorem solve_min_supersedes_witness :
    count_ones 1 1 g_dead ≤ count_ones 1 1 g_alive ∧
    (∀ u, previous_state_select (true, true) u g_alive g_dead = some g_dead) :=
  solve_min_supersedes 1 1 g_dead g_dead g_alive (by decide)
    (fun g _ => Nat.zero_le (count_ones 1 1 g)) (by decide)

/-! ## C3: the deepening bound is non-strict, not strict -/

/-- C3 counterexample: on the 1×1 dead target, an oracle that keeps
returning the (feasible, count-1) all-alive model is accepted twice with
the same live-cell count, and the bound passed to the second check is
the accepted count itself, not count minus 1; so the accepted counts are
not strictly decreasing. -/
theorem solve_iter_not_strictly_decreasing :
    (solve_iter 1 1 oracle_repeat_alive 100).accepted = [1, 1] ∧
    (solve_iter 1 1 oracle_repeat_alive 100).bounds = [1, 1] ∧
    ¬ List.Chain' (fun a b => b < a) (solve_iter 1 1 oracle_repeat_alive 100).accepted ∧
    add_clauses_ite_sat 1 1 g_dead g_alive ∧
    count_ones 1 1 g_alive = 1 := by
  have hacc : (solve_iter 1 1 oracle_repeat_alive 100).accepted = [1, 1] := by rfl
  refine ⟨hacc, by rfl, ?_, by decide, by rfl⟩
  rw [hacc]
  simp [List.chain'_cons]

lemma chain_concat_le {l : List Nat} {mx c : Nat}
    (h1 : List.Chain' (fun a b => b ≤ a) l)
    (h2 : l.getLast?.getD mx = mx) (h3 : c ≤ mx) :
    List.Chain' (fun a b => b ≤ a) (l ++ [c]) ∧
    (l ++ [c]).getLast?.getD c = c := by
  constructor
  · rw [List.chain'_append]
    refine ⟨h1, List.chain'_singleton _, ?_⟩
    intro x hx y hy
    simp only [List.head?_cons, Option.mem_def, Option.some.injEq] at hy
    subst hy
    cases hl : l.getLast? with
    | none => rw [hl] at hx; exact absurd hx (by simp)
    | some v =>
        rw [hl] at hx h2
        simp only [Option.mem_def, Option.some.injEq] at hx
        simp only [Option.getD_some] at h2
        subst hx
        subst h2
        exact h3
  · rw [List.getLast?_concat]
    rfl

lemma solve_iter_go_inv (n m : Nat) (oracle : Nat → check_result) :
    ∀ (fuel : Nat) (st : IterState),
      List.Chain' (fun a b => b ≤ a) st.accepted →
      st.accepted.getLast?.getD st.max = st.max →
      List.Chain' (fun a b => b ≤ a) (solve_iter_go n m oracle fuel st).accepted ∧
        (solve_iter_go n m oracle fuel st).accepted.getLast?.getD
          (solve_iter_go n m oracle fuel st).max =
          (solve_iter_go n m oracle fuel st).max := by
  intro fuel
  induction fuel with
  | zero => intro st h1 h2; exact ⟨h1, h2⟩
  | succ fuel ih =>
      intro st h1 h2
      unfold solve_iter_go
      by_cases ht : st.timeout = 0
      · simp only [ht, if_true]
        exact ⟨h1, h2⟩
      · simp only [ht, if_false]
        cases hor : oracle st.calls with
        | found g e =>
            by_cases hc : count_ones n m g ≤ st.max
            · simp only [hc, if_true]
              have h := chain_concat_le h1 h2 hc
              exact ih _ h.1 h.2
            · simp only [hc, if_false]
              exact ih _ h1 h2
        | unsat_res e => exact ⟨h1, h2⟩
        | unknown_res e => exact ⟨h1, h2⟩

/-- C3 amended: within one run of `solve_iter`, the live-cell counts of
the successively accepted solutions are non-increasing (each accepted
count is at most the previous one), and after an acceptance the bound
carried into the next check equals the accepted count itself (the final
`max` equals the last accepted count; the code sets `max = cur`, not
`cur - 1`). -/
theorem solve_iter_accepted_antitone (n m : Nat) (oracle : Nat → check_result)
    (t : Nat) :
    List.Chain' (fun a b => b ≤ a) ((solve_iter n m oracle t).accepted) ∧
    (solve_iter n m oracle t).accepted.getLast?.getD (solve_iter n m oracle t).max =
      (solve_iter n m oracle t).max := by
  exact solve_iter_go_inv n m oracle (n * m + 1) _ (by simp) (by simp)

/-! ## C10: the deepening loop terminates within `n*m + 1` checks -/

lemma solve_iter_go_calls (n m : Nat) (oracle : Nat → check_result) :
    ∀ (fuel : Nat) (st : IterState),
      (solve_iter_go n m oracle fuel st).calls ≤ st.calls + fuel := by
  intro fuel
  induction fuel with
  | zero => intro st; simp [solve_iter_go]
  | succ fuel ih =>
      intro st
      unfold solve_iter_go
      by_cases ht : st.timeout = 0
      · simp only [ht, if_true]; omega
      · simp only [ht, if_false]
        cases hor : oracle st.calls with
        | found g e =>
            by_cases hc : count_ones n m g ≤ st.max
            · simp only [hc, if_true]
              refine le_trans (ih _) ?_
              simp only []
              omega
            · simp only [hc, if_false]
              refine le_trans (ih _) ?_
              simp only []
              omega
        | unsat_res e => simp only []; omega
        | unknown_res e => simp only []; omega

/-- C10: for every grid size, oracle behaviour and time budget the
deepening loop of `solve_iter` makes at most `rows*cols + 1` solver
calls (the loop counter runs from `rows*cols` down to `0` and the loop
also stops early on a non-sat check or an exhausted budget), and the
`time_it` accounting clamps the remaining timeout at zero instead of
wrapping around when the elapsed time meets or exceeds it. -/
theorem solve_iter_call_bound (n m : Nat) (oracle : Nat → check_result) (t : Nat) :
    (solve_iter n m oracle t).calls ≤ n * m + 1 ∧
    (∀ r k, time_it_update r k ≤ r) ∧
    (∀ r k, r ≤ k → time_it_update r k = 0) := by
  refine ⟨?_, ?_, ?_⟩
  · have := solve_iter_go_calls n m oracle (n * m + 1)
      { sat := false, best := none, max := n * m, timeout := t,
        calls := 0, bounds := [], accepted := [] }
    simpa [solve_iter] using this
  · intro r k; unfold time_it_update; split <;> omega
  · intro r k h; unfold time_it_update; split <;> omega

/-! ## C6: proven-unsat and budget-exhausted produce identical results -/

/-- C6 counterexample: a run whose first check proves unsatisfiability
and a run whose first check is an inconclusive timeout (the whole 100 ms
budget consumed) leave `solve_iter` in byte-for-byte identical final
states — `sat = false` and no extracted grid — so nothing downstream can
tell the two failure kinds apart. -/
theorem unsat_vs_timeout_identical :
    solve_iter 1 1 oracle_unsat_100 100 = solve_iter 1 1 oracle_unknown_100 100 ∧
    oracle_unsat_100 0 = .unsat_res 100 ∧
    oracle_unknown_100 0 = .unknown_res 100 ∧
    (solve_iter 1 1 oracle_unsat_100 100).sat = false ∧
    (solve_iter 1 1 oracle_unsat_100 100).best = none := by
  exact ⟨rfl, rfl, rfl, rfl, rfl⟩

/-- C6 amended: the two failure kinds are not internally distinguishable:
for every grid size, budget and elapsed time, a solver that answers
`unsat` leaves `solve_iter` in exactly the state a solver that answers
`unknown` does; `solve_iter` (and hence `launch_tasks` and
`previous_state`) returns only `sat = false` either way. -/
theorem unsat_unknown_indistinguishable (n m t e : Nat) :
    solve_iter n m (fun _ => check_result.unsat_res e) t =
      solve_iter n m (fun _ => check_result.unknown_res e) t := by
  unfold solve_iter
  unfold solve_iter_go
  by_cases ht : t = 0 <;> simp [ht]

/-! ## C4: the unsat report is gated correctly but is not immediate -/

/-- C4 (code bug): the gating half of the claim holds — on an
unsatisfiable feasibility verdict the returned pair is `(false, false)`
whatever the minimizer's outcome, which is consulted only on a `true`
verdict, and `previous_state` then selects the `unsat` board.  But the
report is not immediate and the late result is not discarded without
blocking: `launch_tasks` returns through the destructors of its local
`std::async` futures, so with the feasibility wait ending after 5 ms
and the abandoned minimizer running to its full 300000 ms z3 timeout,
the pair reaches the caller only at 300000 ms. -/
theorem launch_tasks_blocks_on_minimizer :
    (∀ mo mo' : Option Bool,
      (launch_tasks_run false mo 5 5 300000).1 = (false, false) ∧
      (launch_tasks_run false mo 5 5 300000).1 = (launch_tasks_run false mo' 5 5 300000).1 ∧
      (∀ u a mb : NatGrid,
        previous_state_select (launch_tasks_run false mo 5 5 300000).1 u a mb = some u)) ∧
    (∀ v, launch_tasks_select true (some v) = (true, v)) ∧
    (∀ mo : Option Bool, (launch_tasks_run false mo 5 5 300000).2 = 300000) ∧
    ¬ (launch_tasks_run false none 5 5 300000).2 ≤ 5 := by
  refine ⟨fun mo mo' => ⟨rfl, rfl, fun u a mb => rfl⟩, fun v => rfl, fun mo => rfl, by decide⟩

/-! ## C5: `previous_state` never yields a disengaged optional -/

/-- C5 (code bug): `previous_state` wraps one of three boards into an
engaged optional on every path — including the unsatisfiable one, where
it returns the default-constructed `unsat` board — so the disengaged
optional (and with it the "No solution found." fallback of
`operator<<`) is unreachable from `previous_state`; yet the 1×1
all-alive target provably has no predecessor. -/
theorem previous_state_always_engaged :
    (∀ (status : Bool × Bool) (u a mb : NatGrid),
      (previous_state_select status u a mb).isSome = true) ∧
    (∀ t0 : NatGrid, spec_step 1 1 g_alive t0 ↔ False) ∧
    (∀ render, print_optional render none = "No solution found.") ∧
    (∀ render b, print_optional render (some b) = render b) := by
  refine ⟨?_, ?_, fun _ => rfl, fun _ _ => rfl⟩
  · rintro ⟨f, s⟩ u a mb
    cases f <;> cases s <;> rfl
  · intro t0
    constructor
    · intro h
      have h00 := h 0 (by omega) 0 (by omega)
      have hcell : spec_life_cell 1 1 t0 0 0 = false := by
        unfold spec_life_cell spec_alive_neighbors
        rw [show spec_neighbors 1 1 0 0 = [] from rfl]
        simp
      rw [hcell] at h00
      exact absurd h00 (by simp [g_alive])
    · intro h
      exact h.elim

/-! ## C7: the legacy combinatorial encoding is not equivalent -/

/-- C7 (code bug): on the 1×1 board whose t1 cell is alive, the legacy
kissat clause generator (`life`/`dead` of solveee.c) emits no clauses at
all — its pair enumeration needs at least two in-bounds neighbors and
`dead_two_neigh` is commented out — so every assignment satisfies the
legacy clause set, while the direct implication encoding is
unsatisfiable there (an isolated cell can never have 3 live neighbors);
the two encodings are not logically equivalent. -/
theorem legacy_encoding_not_equivalent :
    add_clauses_ee 1 1 (board_read_table 1 1 fun _ _ => 1) = [] ∧
    (∀ a : Nat → Bool, cnf_sat a (add_clauses_ee 1 1 (board_read_table 1 1 fun _ _ => 1)) = true) ∧
    (∀ t0 : NatGrid, add_clauses_five_sat 1 1 g_alive t0 ↔ False) := by
  have hcnf : add_clauses_ee 1 1 (board_read_table 1 1 fun _ _ => 1) = [] := by rfl
  refine ⟨hcnf, ?_, ?_⟩
  · intro a
    rw [hcnf]
    rfl
  · intro t0
    constructor
    · intro h
      have h5 := h 0 (by omega) 0 (by omega)
      have hk : neigh_sum 1 1 t0 0 0 = 0 := rfl
      rw [hk] at h5
      unfold five_rules at h5
      cases ha : t0 0 0 with
      | false =>
          have hdead := h5.2.2.2.2 ⟨ha, by omega⟩
          simp [g_alive] at hdead
      | true =>
          have hdead := h5.1 ⟨ha, by omega⟩
          simp [g_alive] at hdead
    · intro h
      exact h.elim

/-! ## C8: the legacy variable numbering collides on non-square boards -/

/-- C8 (code bug): `board_read` numbers cell `(i, j)` with
`i * board->n + j + 1`, multiplying by the row count instead of the
column count; on a 2×3 board the distinct cells `(0, 2)` and `(1, 0)`
both receive literal magnitude 3, so the mapping is not injective — the
spec's `row * cols + col + 1` keeps them distinct (3 versus 4). -/
theorem board_read_ind_collision :
    board_read_ind 2 0 2 = 3 ∧ board_read_ind 2 1 0 = 3 ∧
    ((0, 2) : Nat × Nat) ≠ (1, 0) ∧
    board_read_table 2 3 (fun _ _ => 1) 0 2 = board_read_table 2 3 (fun _ _ => 1) 1 0 ∧
    spec_var_ind 3 0 2 = 3 ∧ spec_var_ind 3 1 0 = 4 := by
  refine ⟨rfl, rfl, by decide, rfl, rfl, rfl⟩

/-! ## C9: the neighbor topology -/

lemma length_filterMap_ite {α β : Type} (p : α → Prop) [DecidablePred p] (g : α → β) :
    ∀ l : List α,
      (l.filterMap fun a => if p a then some (g a) else none).length =
        l.countP fun a => decide (p a) := by
  intro l
  induction l with
  | nil => rfl
  | cons a l ih =>
      by_cases h : p a <;> simp [h, ih, List.countP_cons]

lemma spec_neighbors_length (n m i j : Nat) :
    (spec_neighbors n m i j).length =
      off_table.countP fun d => decide (in_bounds n m (d.1 + i) (d.2 + j)) :=
  length_filterMap_ite _ _ off_table

lemma spec_neighbors_length_le (n m i j : Nat) :
    (spec_neighbors n m i j).length ≤ 8 := by
  have h := List.length_filterMap_le
    (fun d : Int × Int =>
      if in_bounds n m (d.1 + i) (d.2 + j) then
        some ((d.1 + (i : Int)).toNat, (d.2 + (j : Int)).toNat)
      else none) off_table
  simpa [spec_neighbors] using h

lemma spec_neighbors_length_ge (n m i j : Nat) (hi : i < n) (hj : j < m)
    (hn : 2 ≤ n) (hm : 2 ≤ m) : 3 ≤ (spec_neighbors n m i j).length := by
  rw [spec_neighbors_length]
  simp only [off_table, List.countP_cons, List.countP_nil, decide_eq_true_eq, in_bounds]
  split_ifs <;> omega

set_option maxHeartbeats 1000000 in
lemma neigh_present_ee_eq_spec (n m i j : Nat) (hi : i < n) (hj : j < m)
    (hn : n < 2 ^ 64) (hm : m < 2 ^ 64) :
    neigh_present_ee n m i j = spec_neighbors n m i j := by
  unfold neigh_present_ee spec_neighbors
  apply List.filterMap_congr
  intro d hd
  simp only [off_table, List.mem_cons, List.mem_nil_iff, or_false] at hd
  rcases hd with rfl | rfl | rfl | rfl | rfl | rfl | rfl | rfl <;>
    · simp only [wrap_add, in_bounds]
      split_ifs <;>
        first
          | rfl
          | (exfalso; omega)
          | (simp only [Option.some.injEq, Prod.mk.injEq]
             constructor <;> omega)

/-- C9 counterexample: on a 1×1 grid the single cell has no in-bounds
Moore neighbor at all — the neighbor list is empty, with fewer than the
3 neighbors the claim promises every cell. -/
theorem spec_neighbors_1x1_empty :
    spec_neighbors 1 1 0 0 = [] ∧ (spec_neighbors 1 1 0 0).length < 3 := by
  exact ⟨rfl, by decide⟩

set_option maxHeartbeats 1000000 in
/-- C9 amended: for every cell of every grid, the neighbor computation
keeps exactly the Moore offsets landing inside `[0, rows) × [0, cols)`
and never more than 8 of them; the lower bound of 3 holds once both
dimensions are at least 2 (degenerate 1-wide grids yield fewer, down to
0 on a 1×1 grid); the symbolic neighbor sum of the Z3 encoder counts
over exactly this set, and the legacy `neigh_init` (solveee.c) marks
exactly the same positions as present. -/
theorem neighbors_in_bounds_moore (n m i j : Nat) (hi : i < n) (hj : j < m)
    (hn : 2 ≤ n) (hm : 2 ≤ m) (hn64 : n < 2 ^ 64) (hm64 : m < 2 ^ 64) :
    3 ≤ (spec_neighbors n m i j).length ∧
    (spec_neighbors n m i j).length ≤ 8 ∧
    (∀ x y : Nat, (x, y) ∈ spec_neighbors n m i j ↔
      (x < n ∧ y < m ∧ ((x : Int) - i).natAbs ≤ 1 ∧ ((y : Int) - j).natAbs ≤ 1 ∧
        (x, y) ≠ (i, j))) ∧
    (∀ t0 : NatGrid,
      neigh_sum n m t0 i j = (spec_neighbors n m i j).countP fun p => t0 p.1 p.2) ∧
    neigh_present_ee n m i j = spec_neighbors n m i j := by
  refine ⟨spec_neighbors_length_ge n m i j hi hj hn hm,
          spec_neighbors_length_le n m i j, ?_, ?_, ?_⟩
  · intro x y
    constructor
    · intro hmem
      rcases List.mem_filterMap.mp hmem with ⟨d, hd, hfd⟩
      simp only [off_table, List.mem_cons, List.mem_nil_iff, or_false] at hd
      rcases hd with rfl | rfl | rfl | rfl | rfl | rfl | rfl | rfl <;>
        · rw [ite_eq_iff] at hfd
          rcases hfd with ⟨hb, heq⟩ | ⟨_, heq⟩
          · simp only [in_bounds] at hb
            simp only [Option.some.injEq, Prod.mk.injEq] at heq
            refine ⟨by omega, by omega, by omega, by omega, ?_⟩
            simp only [ne_eq, Prod.mk.injEq]
            omega
          · exact absurd heq (by simp)
    · rintro ⟨hx, hy, hdx, hdy, hne⟩
      apply List.mem_filterMap.mpr
      refine ⟨((x : Int) - i, (y : Int) - j), ?_, ?_⟩
      · simp only [off_table, List.mem_cons, List.mem_singleton, Prod.mk.injEq,
          ne_eq, Prod.mk.injEq] at hne ⊢
        omega
      · rw [if_pos]
        · simp only [Option.some.injEq, Prod.mk.injEq]
          constructor <;> omega
        · simp only [in_bounds]
          omega
  · intro t0
    rw [neigh_sum_eq_spec]
    rfl
  · exact neigh_present_ee_eq_spec n m i j hi hj hn64 hm64

/-- Witness for C9 amended at the interior cell `(1, 1)` of a 3×3 grid
(8 neighbors). -/
theorem neighbors_in_bounds_moore_witness :
    3 ≤ (spec_neighbors 3 3 1 1).length ∧
    (spec_neighbors 3 3 1 1).length ≤ 8 ∧
    (∀ x y : Nat, (x, y) ∈ spec_neighbors 3 3 1 1 ↔
      (x < 3 ∧ y < 3 ∧ ((x : Int) - 1).natAbs ≤ 1 ∧ ((y : Int) - 1).natAbs ≤ 1 ∧
        (x, y) ≠ (1, 1))) ∧
    (∀ t0 : NatGrid,
      neigh_sum 3 3 t0 1 1 = (spec_neighbors 3 3 1 1).countP fun p => t0 p.1 p.2) ∧
    neigh_present_ee 3 3 1 1 = spec_neighbors 3 3 1 1 :=
  neighbors_in_bounds_moore 3 3 1 1 (by decide) (by decide) (by decide) (by decide)
    (by decide) (by decide)

end RGoL
